import Mathlib

/-!
Verification of the llmos-cli extraction engine against its specification.

The Python sources under `src/` are shallowly embedded below:
pure string manipulation is embedded through a small library of
structurally recursive operations on `List Char` (so every definition is
executable and kernel-evaluable), tree-sitter syntax nodes are embedded as
a finite tree datatype carrying the node's type string, its source text,
its fields and its (named / all) children, and the per-file aggregation
loop of `cli.py` is embedded as a fold over an association list that
models the insertion-ordered Python `dict`.
-/

namespace Llmos

/-! ## Python string primitives (modelled on `List Char`)

`str.strip`, `str.split`, `str.replace`, `str.startswith`, `str.endswith`,
`str.lower`, slicing and `in` are modelled below.  All are structurally
recursive so that concrete instances evaluate by `decide` / `rfl`.
Unicode-specific behaviour (non-ASCII case folding, exotic whitespace)
is outside the inputs exercised by the claims; on ASCII these functions
agree with CPython.
-/

/-- Characters treated as whitespace by Python's default `str.strip`. -/
def pyIsSpace (c : Char) : Bool :=
  c == ' ' || c == '\t' || c == '\n' || c == '\x0d' || c == '\x0b' || c == '\x0c'

/-- Python `s.strip()`: remove leading and trailing whitespace. -/
def pyStrip (s : String) : String :=
  ⟨((s.data.dropWhile pyIsSpace).reverse.dropWhile pyIsSpace).reverse⟩

/-- Python `s.lstrip('*')`: remove leading `'*'` characters. -/
def pyLstripStar (s : String) : String :=
  ⟨s.data.dropWhile (fun c => c == '*')⟩

/-- Python `s.startswith(pre)`. -/
def pyStartsWith (s pre : String) : Bool :=
  pre.data.isPrefixOf s.data

/-- Python `s.endswith(suf)`. -/
def pyEndsWith (s suf : String) : Bool :=
  suf.data.isSuffixOf s.data

/-- Python `s[n:]` (character drop). -/
def pyDrop (s : String) (n : Nat) : String :=
  ⟨s.data.drop n⟩

/-- Python `s[:-n]` (drop `n` characters from the right; total). -/
def pyDropRight (s : String) (n : Nat) : String :=
  ⟨s.data.take (s.data.length - n)⟩

/-- Splitting on a single separator character, CPython `str.split(sep)`
semantics: `"".split(sep) = [""]`, separators at the ends produce empty
fields. -/
def splitChAux (sep : Char) : List Char → List Char → List (List Char)
  | [], acc => [acc.reverse]
  | c :: cs, acc =>
    if c == sep then acc.reverse :: splitChAux sep cs []
    else splitChAux sep cs (c :: acc)

/-- Python `s.split(sep)` for a one-character separator. -/
def pySplitOn (sep : Char) (s : String) : List String :=
  (splitChAux sep s.data []).map (fun l => ⟨l⟩)

/-- Python `sep.join(parts)`. -/
def pyJoin (sep : String) : List String → String
  | [] => ""
  | [x] => x
  | x :: xs => x ++ sep ++ pyJoin sep xs

/-- Python `s.replace(old, new)` for one-character `old`/`new`. -/
def pyReplaceChar (a b : Char) (s : String) : String :=
  ⟨s.data.map (fun c => if c == a then b else c)⟩

/-- Python `s.lower()` (ASCII case folding). -/
def pyLower (s : String) : String :=
  ⟨s.data.map Char.toLower⟩

/-- Membership of `needle` as a contiguous substring (Python `in`). -/
def hasSubSeq [BEq α] : List α → List α → Bool
  | needle, [] => needle.isEmpty
  | needle, c :: cs => needle.isPrefixOf (c :: cs) || hasSubSeq needle cs

/-- Python `sub in s` (substring containment). -/
def pyContains (s sub : String) : Bool :=
  hasSubSeq sub.data s.data

/-- Last index of `'.'` in a character list, if any. -/
def lastDotIdx (cs : List Char) : Option Nat :=
  (List.range cs.length).foldl
    (fun acc i => if cs.getD i ' ' == '.' then some i else acc) none

/-- `pathlib.PurePath(name).stem`: the name without its final suffix.  A
dot at position `0` or at the very end does not start a suffix
(`PurePath.suffix`: `0 < i < len(name) - 1`). -/
def pathStem (s : String) : String :=
  match lastDotIdx s.data with
  | some i => if 0 < i ∧ i < s.data.length - 1 then ⟨s.data.take i⟩ else s
  | none => s

/-- `pathlib.Path(rel).parts` for the clean relative POSIX paths handled
by the claims: the `'/'`-separated segments. -/
def pathParts (s : String) : List String :=
  pySplitOn '/' s

/-! ## `textwrap.dedent` (CPython semantics)

CPython first blanks out whitespace-only lines, collects the leading
`[ \t]*` run of every line that contains another character, folds those
indents into the margin (the fold in CPython's `dedent` computes exactly
the longest common prefix of the indents: `indent.startswith(margin)`
keeps `margin`, `margin.startswith(indent)` shrinks it to `indent`, and
otherwise `margin` is cut at the first mismatching position), and finally
removes the margin from the start of every line that carries it. -/

/-- Is the character a space or a tab (the class `[ \t]`)? -/
def isBlankCh (c : Char) : Bool := c == ' ' || c == '\t'

/-- Longest common prefix of two character lists. -/
def commonPfx : List Char → List Char → List Char
  | a :: as, b :: bs => if a == b then a :: commonPfx as bs else []
  | _, _ => []

/-- `textwrap.dedent` from the CPython standard library. -/
def textwrap_dedent (text : String) : String :=
  let lines := pySplitOn '\n' text
  let lines := lines.map (fun l => if l ≠ "" ∧ l.data.all isBlankCh then "" else l)
  let indents :=
    (lines.filter (fun l => l.data.any (fun c => !(isBlankCh c)))).map
      (fun l => (⟨l.data.takeWhile isBlankCh⟩ : String))
  let margin : String :=
    match indents with
    | [] => ""
    | i :: rest => rest.foldl (fun m ind => ⟨commonPfx m.data ind.data⟩) i
  if margin ≠ "" then
    pyJoin "\n" (lines.map (fun l => if pyStartsWith l margin then pyDrop l margin.length else l))
  else
    pyJoin "\n" lines

/-! ## FQN builder (`src/extract_python.py`) and component ids (`src/cli.py`) -/

/-- The module base path computed inside `_build_python_fqn`
(`src/extract_python.py` lines 17–23): replace `os.sep` by `'.'`, split on
`'.'`, drop a trailing `"py"` part (from the `.py` extension), drop a
trailing `"__init__"` part, and join the non-empty parts with `'.'`. -/
def python_module_base (file_rel_path : String) : String :=
  let module_parts := pySplitOn '.' (pyReplaceChar '/' '.' file_rel_path)
  let module_parts :=
    if module_parts.getLast? = some "py" then module_parts.dropLast else module_parts
  let module_parts :=
    if module_parts ≠ [] ∧ module_parts.getLast? = some "__init__" then
      module_parts.dropLast
    else module_parts
  pyJoin "." (module_parts.filter (fun s => s ≠ ""))

/-- `_build_python_fqn(file_rel_path, item_name, parent_fqn)` from
`src/extract_python.py` lines 14–39.  `parent_fqn = some ""` is falsy in
Python and falls through to the no-parent branch. -/
def _build_python_fqn (file_rel_path item_name : String) (parent_fqn : Option String) : String :=
  let base_module_path := python_module_base file_rel_path
  match parent_fqn with
  | some p =>
    if p ≠ "" then
      if base_module_path ≠ "" ∧ pyStartsWith p base_module_path then
        if pyEndsWith p item_name then p else p ++ "." ++ item_name
      else
        p ++ "." ++ item_name
    else
      if base_module_path ≠ "" then base_module_path ++ "." ++ item_name else item_name
  | none =>
    if base_module_path ≠ "" then base_module_path ++ "." ++ item_name else item_name

/-- `find_component_id_for_lib(rel_path_str, library_name)` from
`src/cli.py` lines 38–52.  `known_suffixes` is `(".py", ".pyi")` since
`LANG_MAP` holds only the `.py` entry. -/
def find_component_id_for_lib (rel_path_str library_name : String) : String :=
  let parts := pathParts rel_path_str
  let parts :=
    match parts.getLast? with
    | none => parts
    | some last =>
      let parts :=
        if pyEndsWith last ".py" || pyEndsWith last ".pyi" then
          parts.dropLast ++ [pathStem last]
        else parts
      match parts.getLast? with
      | none => parts
      | some last2 =>
        if last2 = "__init__" ∨ last2 = "mod" ∨ last2 = "lib" then
          if parts.length > 1 then parts.dropLast
          else if last2 ≠ library_name then parts.dropLast else parts
        else parts
  if parts = [] then library_name
  else library_name ++ (if parts ≠ [] then "." else "") ++ pyJoin "." parts

/-- FQN a top-level class receives in `process_file` (`src/cli.py` lines
99–107): the component id is passed as `parent_fqn` into
`extract_py_data_structure`, which builds the qualified name with
`_build_python_fqn`. -/
def pipeline_class_fqn (rel target cls : String) : String :=
  _build_python_fqn rel cls (some (find_component_id_for_lib rel target))

/-- FQN a method nested in that class receives
(`src/extract_python.py` lines 136–143: the class's qualified name is the
method's `parent_fqn`). -/
def pipeline_method_fqn (rel target cls meth : String) : String :=
  _build_python_fqn rel meth (some (pipeline_class_fqn rel target cls))

/-! ## Syntax nodes (`tree_sitter` handles as seen by `src/ast_utils.py`)

A node carries its concrete type string, its source text (the value
`get_node_text` returns for it — for a real node with a non-empty
in-range extent that is exactly the byte slice `[start_byte, end_byte)`
of the file, see `get_node_text` below), its fields (for
`child_by_field_name`), its named children and its full children list
(named and anonymous, for `.children`). -/

inductive Node where
  | mk (ty : String) (txt : String) (fieldList : List (String × Node))
      (named : List Node) (allChildren : List Node)

/-- The node's concrete type string (`node.type`). -/
def Node.ty : Node → String
  | .mk t _ _ _ _ => t

/-- The node's source text (`get_node_text(node, content_bytes)` for an
in-range node). -/
def Node.txt : Node → String
  | .mk _ s _ _ _ => s

/-- The node's field table. -/
def Node.fieldList : Node → List (String × Node)
  | .mk _ _ f _ _ => f

/-- `node.named_children`. -/
def Node.named : Node → List Node
  | .mk _ _ _ n _ => n

/-- `node.children` (named and anonymous). -/
def Node.allChildren : Node → List Node
  | .mk _ _ _ _ c => c

/-- `node.child_by_field_name(name)`. -/
def Node.childByField (n : Node) (fieldName : String) : Option Node :=
  (n.fieldList.find? (fun p => p.1 == fieldName)).map (fun p => p.2)

/-- A leaf node with no children and no fields. -/
def leafN (ty txt : String) : Node := .mk ty txt [] [] []

/-- `find_child_by_field_name` from `src/ast_utils.py` lines 108–111. -/
def find_child_by_field_name (node : Option Node) (fieldName : String) : Option Node :=
  match node with
  | none => none
  | some n => n.childByField fieldName

/-- First lookup in an association list (Python `dict.get`). -/
def lookupAssoc (l : List (String × α)) (k : String) : Option α :=
  (l.find? (fun p => p.1 == k)).map (fun p => p.2)

/-- The `"node_types"` table of the Python `LANG_CONFIG` entry
(`src/config.py` lines 64–68). -/
def python_node_types : List (String × String) :=
  [("func_def", "function_definition"), ("class_def", "class_definition"),
   ("identifier", "identifier"), ("block", "block"),
   ("string", "string"), ("expression_statement", "expression_statement")]

/-- `get_lang_config_val(lang, "node_types", {})`: only the Python entry
is loaded (`src/config.py`: the Rust block is commented out). -/
def lang_node_types (lang : String) : List (String × String) :=
  if lang = "python" then python_node_types else []

/-- `is_node_type(node, lang, type_key)` from `src/ast_utils.py` lines
101–106: unknown languages or type keys classify as `false`. -/
def is_node_type (node : Option Node) (lang typeKey : String) : Bool :=
  match node with
  | none => false
  | some n =>
    match lookupAssoc (lang_node_types lang) typeKey with
    | none => false
    | some expected => n.ty == expected

/-! ## `get_node_text` on byte ranges (`src/ast_utils.py` lines 67–81)

Here the byte-level behaviour itself is the subject (claim C8), so the
function is embedded over explicit byte ranges and buffers.  `decode`
stands for `bytes.decode('utf-8', errors='replace')`, which is total
(never raises).  The `except IndexError` branch in the source is dead
code: a Python slice of a `bytes` object never raises `IndexError`. -/

structure NodeRange where
  start_byte : Nat
  end_byte : Nat

/-- `get_node_text(node, content_bytes)`: `None` for a missing node or
buffer; the decoded slice when `start_byte < end_byte <= len(bytes)`;
the empty string for every other extent. -/
def get_node_text (decode : List Nat → String) (node : Option NodeRange)
    (content_bytes : Option (List Nat)) : Option String :=
  match node, content_bytes with
  | some n, some bs =>
    if n.start_byte < n.end_byte ∧ n.end_byte ≤ bs.length then
      some (decode ((bs.drop n.start_byte).take (n.end_byte - n.start_byte)))
    else
      some ""
  | _, _ => none

/-- A concrete stand-in for `bytes.decode` used by witnesses. -/
def decodeLen : List Nat → String := fun bs => toString bs.length

/-! ## Python docstring extractor (`src/ast_utils.py` lines 113–157) -/

/-- The quote/prefix token types skipped when concatenating the textual
parts of a `string` node (`src/ast_utils.py` line 136). -/
def quoteTokenTypes : List String :=
  ["\"\"\"", "'''", "\"", "'", "r\"", "r'", "u\"", "u'", "f\"", "f'"]

/-- `get_docstring_from_python_node(body_node, content_bytes)`: the first
statement of a `block` must be an `expression_statement` whose first
named child is a `string`; its non-quote child parts are concatenated,
dedented and stripped.  Anything else yields `None`. -/
def get_docstring_from_python_node (body_node : Option Node) : Option String :=
  match body_node with
  | none => none
  | some body =>
    if is_node_type (some body) "python" "block" then
      match body.named with
      | [] => none
      | first_statement :: _ =>
        match first_statement.named with
        | [] => none
        | string_node_container :: _ =>
          if is_node_type (some first_statement) "python" "expression_statement"
              ∧ is_node_type (some string_node_container) "python" "string" then
            let docstring_parts :=
              (string_node_container.allChildren.filter
                (fun c => !(quoteTokenTypes.contains c.ty))).map Node.txt
            let raw_docstring := pyJoin "" docstring_parts
            if raw_docstring ≠ "" then
              some (pyStrip (textwrap_dedent raw_docstring))
            else none
          else none
    else none

/-! ## Rust docstring extractor (`src/ast_utils.py` lines 159–211)

The `while prev_sibling` loop walks the `prev_named_sibling` chain; the
chain (nearest sibling first) is passed explicitly.  Per iteration a
`///` line comment contributes one stripped line and a `/** ... */`
block comment contributes its cleaned lines; the loop stops at the first
sibling that is not a comment node.  The collected list is then
reversed wholesale (`doc_lines.extend(reversed(temp_doc_lines))`). -/

/-- Lines collected by the backward walk, in visit order (source-reverse
order). -/
def collectOuterDocLines : List Node → List String
  | [] => []
  | sib :: rest =>
    if sib.ty = "line_comment" ∨ sib.ty = "block_comment" then
      let ct := sib.txt
      let nls :=
        if ct ≠ "" then
          if sib.ty = "line_comment" ∧ pyStartsWith ct "///" then
            [pyStrip (pyDrop ct 3)]
          else if sib.ty = "block_comment" ∧ pyStartsWith ct "/**" ∧ pyEndsWith ct "*/" then
            let cleaned_block := pyStrip (pyDropRight (pyDrop ct 3) 2)
            (pySplitOn '\n' cleaned_block).map (fun l => pyStrip (pyLstripStar (pyStrip l)))
          else []
        else []
      nls ++ collectOuterDocLines rest
    else []

/-- Inner-doc scan over a `struct_item`/`enum_item`'s named children:
`//!`/`/*!` comments contribute lines, `attribute_item` and brace tokens
are passed over, and the first other child stops the scan. -/
def collectInnerDocLines : List Node → List String
  | [] => []
  | child :: rest =>
    if child.ty = "line_comment" ∨ child.ty = "block_comment" then
      let ct := child.txt
      let nls :=
        if ct ≠ "" then
          if child.ty = "line_comment" ∧ pyStartsWith ct "//!" then
            [pyStrip (pyDrop ct 3)]
          else if child.ty = "block_comment" ∧ pyStartsWith ct "/*!" ∧ pyEndsWith ct "*/" then
            let cleaned_block := pyStrip (pyDropRight (pyDrop ct 3) 2)
            (pySplitOn '\n' cleaned_block).map (fun l => pyStrip (pyLstripStar (pyStrip l)))
          else []
        else []
      nls ++ collectInnerDocLines rest
    else if child.ty ≠ "attribute_item" ∧ child.ty ≠ "\x7b" ∧ child.ty ≠ "\x7d" then []
    else collectInnerDocLines rest

/-- `get_docstring_from_rust_node(item_node, content_bytes)`.
`prevSiblings` is `item_node`'s `prev_named_sibling` chain, nearest
first.  For a `function_item` the source assigns `block_node` from the
`body` field but never reads it, so only outer comments contribute. -/
def get_docstring_from_rust_node (prevSiblings : List Node) (item_node : Node) : Option String :=
  let doc_lines := (collectOuterDocLines prevSiblings).reverse
  let doc_lines :=
    doc_lines ++
      (if item_node.ty = "struct_item" ∨ item_node.ty = "enum_item" then
        if item_node.named.length > 0 then collectInnerDocLines item_node.named else []
      else [])
  if doc_lines ≠ [] then some (pyStrip (pyJoin "\n" doc_lines)) else none

/-! ## Python signature extractor (`src/extract_python.py` lines 42–96) -/

/-- One `param_info` record: keys `"name"`, `"type"`, `"default_value"`.
The field `ptype` stands for the Python key `"type"`. -/
structure ParamInfo where
  name : String
  ptype : String
  default_value : Option String
deriving DecidableEq

/-- The signature record: keys `"params"`, `"return_type"`, `"async"`. -/
structure PySig where
  params : List ParamInfo
  return_type : String
  isAsync : Bool
deriving DecidableEq

/-- The per-child branch of the parameter loop in `extract_py_signature`.
Each iteration starts from
`{"name": "_unknown_", "type": "unknown", "default_value": None}` and
dispatches on `child.type`; an unmatched type leaves the record at
`"_unknown_"` (later filtered out). -/
def paramInfoOf (child : Node) : ParamInfo :=
  if child.ty = "identifier" then
    { name := child.txt, ptype := "unknown", default_value := none }
  else if child.ty = "typed_parameter" then
    let name_node :=
      match child.childByField "name" with
      | some n => some n
      | none =>
        match child.allChildren with
        | c0 :: _ => if c0.ty = "identifier" then some c0 else none
        | [] => none
    { name := match name_node with | some n => n.txt | none => "_anon_",
      ptype := match child.childByField "type" with | some t => t.txt | none => "unknown",
      default_value := none }
  else if child.ty = "default_parameter" then
    { name := match child.childByField "name" with | some n => n.txt | none => "_anon_",
      ptype := match child.childByField "type" with | some t => t.txt | none => "unknown",
      default_value := (child.childByField "value").map Node.txt }
  else if child.ty = "list_splat_pattern" ∨ child.ty = "tuple_pattern" then
    { name :=
        match child.named with
        | n :: _ => if n.ty = "identifier" then "*" ++ n.txt else "*args"
        | [] => "*args",
      ptype := "tuple", default_value := none }
  else if child.ty = "dictionary_splat_pattern" then
    { name :=
        match child.named with
        | n :: _ => if n.ty = "identifier" then "**" ++ n.txt else "**kwargs"
        | [] => "**kwargs",
      ptype := "dict", default_value := none }
  else if child.ty = "*" then
    { name := "*", ptype := "_marker_args_", default_value := none }
  else if child.ty = "/" then
    { name := "/", ptype := "_marker_pos_only_", default_value := none }
  else
    { name := "_unknown_", ptype := "unknown", default_value := none }

/-- `extract_py_signature(func_node, content_bytes)`: async detection by
the `async` field with a first-child fallback, the parameter loop (only
records whose name moved off `"_unknown_"` are appended), and the
`return_type` field (`get_node_text(...) or "unknown"`). -/
def extract_py_signature (func_node : Node) : PySig :=
  let is_async_node : Option Node :=
    match func_node.childByField "async" with
    | some n => some n
    | none =>
      match func_node.allChildren with
      | c0 :: _ => if c0.ty = "async" then some c0 else none
      | [] => none
  let params :=
    match func_node.childByField "parameters" with
    | none => []
    | some param_list_node =>
      (param_list_node.named.map paramInfoOf).filter (fun p => p.name ≠ "_unknown_")
  let return_type :=
    match func_node.childByField "return_type" with
    | some rt => if rt.txt ≠ "" then rt.txt else "unknown"
    | none => "unknown"
  { params := params, return_type := return_type, isAsync := is_async_node.isSome }

/-! ## Query compilation and execution (`src/ast_utils.py` lines 41–47, 83–92)

A compiled query is modelled by its `captures` behaviour; `compile`
stands for `Language.query(query_string)` with `none` for a compilation
failure (the `except` branch, which prints a warning and inserts
nothing).  `query.captures(node)` with its `try/except` is modelled as a
total function. -/

def QueryFn := Node → List (Node × String)

/-- The query pre-compilation loop of `_initialize_parser`: each entry of
the config's `"queries"` dict is compiled, and failures are skipped.  -/
def compileQueryList (compile : String → Option QueryFn) :
    List (String × String) → List (String × QueryFn)
  | [] => []
  | (query_name, query_string) :: rest =>
    match compile query_string with
    | some q => (query_name, q) :: compileQueryList compile rest
    | none => compileQueryList compile rest

/-- The `_queries_compiled` state after initializing one language. -/
def queriesCompiledFor (lang : String) (compile : String → Option QueryFn)
    (queries : List (String × String)) : List (String × List (String × QueryFn)) :=
  [(lang, compileQueryList compile queries)]

/-- `run_query(query_key, lang, node)`: `_queries_compiled.get(lang, {})`
then `.get(query_key)`; a missing language, a missing query or a missing
node yields `[]`. -/
def run_query (state : List (String × List (String × QueryFn)))
    (query_key lang : String) (node : Option Node) : List (Node × String) :=
  let lang_queries := (lookupAssoc state lang).getD []
  match lookupAssoc lang_queries query_key, node with
  | some q, some n => q n
  | _, _ => []

/-! ## Aggregation into the component store (`src/cli.py` lines 88–124, 274)

One processed file contributes its component id and the extracted
batches `new_structs` / `new_funcs` / `new_tests`; records are kept
abstract as strings (their identity is all aggregation looks at).  The
ordered Python dict `repo_ir["components"]` is an association list in
insertion order. -/

structure FileResult where
  cid : String
  structs : List String
  funcs : List String
  tests : List String

/-- One aggregated component (`repo_ir["components"][cid]`). -/
structure Component where
  component_id : String
  component_type : String
  source_path : String
  data_structures : List String
  functions : List String
  test_specifications : List String
deriving DecidableEq

/-- The fresh component built on first sight of a component id
(`src/cli.py` lines 89–95); the `summary` string field is omitted as
pure presentation. -/
def emptyComponent (cid : String) : Component :=
  { component_id := cid, component_type := "python_module",
    source_path := pyReplaceChar '.' '/' cid,
    data_structures := [], functions := [], test_specifications := [] }

/-- Append one file's batches onto a component (the three `extend`
calls, `src/cli.py` lines 122–124). -/
def extendComponent (fr : FileResult) (c : Component) : Component :=
  { c with data_structures := c.data_structures ++ fr.structs,
           functions := c.functions ++ fr.funcs,
           test_specifications := c.test_specifications ++ fr.tests }

/-- The insertion-ordered dict of components. -/
abbrev Store := List (String × Component)

/-- Dict update at a key (Python `components[cid] = ...` value update). -/
def dictApply (store : Store) (cid : String) (f : Component → Component) : Store :=
  store.map (fun p => if p.1 == cid then (p.1, f p.2) else p)

/-- Key membership (`component_id not in repo_ir["components"]`). -/
def storeHas (store : Store) (cid : String) : Bool :=
  (store.find? (fun p => p.1 == cid)).isSome

/-- The aggregation step of `process_file`: create the component on
first sight, then extend the three lists. -/
def process_file_agg (store : Store) (fr : FileResult) : Store :=
  let store1 := if storeHas store fr.cid then store else store ++ [(fr.cid, emptyComponent fr.cid)]
  dictApply store1 fr.cid (extendComponent fr)

/-- The component store after processing a list of files in order. -/
def pipelineStore (files : List FileResult) : Store :=
  files.foldl process_file_agg []

/-- `repo_ir["components"] = list(repo_ir["components"].values())`
(`src/cli.py` line 274): the final top-level component sequence. -/
def run_pipeline (files : List FileResult) : List Component :=
  (pipelineStore files).map (fun p => p.2)

/-- The list selected by a component projection in the store, `[]` when
the id is absent. -/
def storeSel (sel : Component → List String) (store : Store) (cid : String) : List String :=
  match store.find? (fun p => p.1 == cid) with
  | some p => sel p.2
  | none => []

/-- First-occurrence order of a list of keys (the insertion order of a
Python dict fed those keys). -/
def firstOccurrences (ks : List String) : List String :=
  ks.foldl (fun acc k => if k ∈ acc then acc else acc ++ [k]) []

/-- Lexicographic string order (for the sortedness counterexample). -/
def strLe (a b : String) : Bool :=
  listLexLe a.data b.data
where
  listLexLe : List Char → List Char → Bool
    | [], _ => true
    | _ :: _, [] => false
    | a :: as, b :: bs => if a == b then listLexLe as bs else decide (a < b)

/-- Is a list of component ids sorted? -/
def idsSorted : List String → Bool
  | [] => true
  | [_] => true
  | a :: b :: rest => strLe a b && idsSorted (b :: rest)

/-! ## Routing of top-level Python functions (`src/cli.py` lines 74–75, 108–120) -/

/-- `is_test_file`: the file name contains `"test"` (case-insensitively)
or some part of the file's path lowercases to `"test"` or `"tests"`. -/
def is_test_file (file_name : String) (file_parts : List String) : Bool :=
  pyContains (pyLower file_name) "test" ||
    file_parts.any (fun p => pyLower p = "test" ∨ pyLower p = "tests")

/-- The two batches one top-level `function_definition` contributes. -/
structure RoutedDecl where
  new_funcs : List String
  new_tests : List String
deriving DecidableEq

/-- The `func_def` arm of the per-node loop in `process_file`:
`func_name_text` is `get_node_text(name_node, ...) or ""`.  A test file
or a `test_`-prefixed name routes to the test-spec extractor (which
returns `[]` exactly when the name is empty); otherwise to the function
extractor (which returns `None` exactly when the name is empty). -/
def route_py_func_decl (isTestFile : Bool) (func_name_text : String) : RoutedDecl :=
  let is_test_func_by_name := pyStartsWith func_name_text "test_"
  if isTestFile || is_test_func_by_name then
    { new_funcs := [], new_tests := if func_name_text = "" then [] else [func_name_text] }
  else
    { new_funcs := if func_name_text = "" then [] else [func_name_text], new_tests := [] }

/-! ## Concrete syntax trees used by the claims

The trees below are the tree-sitter-python / tree-sitter-rust parses of
the claims' code fragments, written out node by node.  In the Python
grammar a parameter `b: T = 5` (annotation *and* default) is a
`typed_default_parameter` node with fields `name`/`type`/`value`; plain
`b = 5` would be a `default_parameter` (fields `name`/`value` only —
that node shape has no `type` field). -/

/-- The `parameters` node of `def f(a, b: T = 5, *args, **kwargs)`. -/
def c1_b_param : Node :=
  .mk "typed_default_parameter" "b: T = 5"
    [("name", leafN "identifier" "b"), ("type", leafN "type" "T"),
     ("value", leafN "integer" "5")]
    [leafN "identifier" "b", leafN "type" "T", leafN "integer" "5"]
    [leafN "identifier" "b", leafN ":" ":", leafN "type" "T", leafN "=" "=",
     leafN "integer" "5"]

def c1_args_param : Node :=
  .mk "list_splat_pattern" "*args" []
    [leafN "identifier" "args"]
    [leafN "*" "*", leafN "identifier" "args"]

def c1_kwargs_param : Node :=
  .mk "dictionary_splat_pattern" "**kwargs" []
    [leafN "identifier" "kwargs"]
    [leafN "**" "**", leafN "identifier" "kwargs"]

def c1_param_list : Node :=
  .mk "parameters" "(a, b: T = 5, *args, **kwargs)" []
    [leafN "identifier" "a", c1_b_param, c1_args_param, c1_kwargs_param]
    [leafN "(" "(", leafN "identifier" "a", leafN "," ",", c1_b_param,
     leafN "," ",", c1_args_param, leafN "," ",", c1_kwargs_param, leafN ")" ")"]

/-- `def f(a, b: T = 5, *args, **kwargs): pass` as a
`function_definition` node. -/
def c1_func_node : Node :=
  .mk "function_definition" "def f(a, b: T = 5, *args, **kwargs): pass"
    [("name", leafN "identifier" "f"), ("parameters", c1_param_list),
     ("body", .mk "block" "pass" [] [leafN "pass_statement" "pass"]
        [leafN "pass_statement" "pass"])]
    [leafN "identifier" "f", c1_param_list,
     .mk "block" "pass" [] [leafN "pass_statement" "pass"] [leafN "pass_statement" "pass"]]
    [leafN "def" "def", leafN "identifier" "f", c1_param_list, leafN ":" ":",
     .mk "block" "pass" [] [leafN "pass_statement" "pass"] [leafN "pass_statement" "pass"]]

/-- The `string` node of the indented triple-quoted literal
`"""\n    line one\n    line two\n    """`: quote tokens around the
content part.  (The quote tokens' node types carry the quote text,
which is exactly what the source's skip list at `src/ast_utils.py`
line 136 is written against.) -/
def c4_string_node : Node :=
  .mk "string" "\"\"\"\n    line one\n    line two\n    \"\"\""
    []
    [leafN "string_content" "\n    line one\n    line two\n    "]
    [leafN "\"\"\"" "\"\"\"",
     leafN "string_content" "\n    line one\n    line two\n    ",
     leafN "\"\"\"" "\"\"\""]

/-- A declaration body (`block`) whose first statement is that literal. -/
def c4_body_with_doc : Node :=
  .mk "block" "\"\"\"\n    line one\n    line two\n    \"\"\"\n    return 1"
    []
    [.mk "expression_statement" "\"\"\"\n    line one\n    line two\n    \"\"\""
        [] [c4_string_node] [c4_string_node],
     leafN "return_statement" "return 1"]
    [.mk "expression_statement" "\"\"\"\n    line one\n    line two\n    \"\"\""
        [] [c4_string_node] [c4_string_node],
     leafN "return_statement" "return 1"]

/-- A declaration body whose first statement is not a string literal. -/
def c4_body_no_doc : Node :=
  .mk "block" "x = 1" []
    [.mk "expression_statement" "x = 1" []
        [leafN "assignment" "x = 1"] [leafN "assignment" "x = 1"]]
    [.mk "expression_statement" "x = 1" []
        [leafN "assignment" "x = 1"] [leafN "assignment" "x = 1"]]

/-- The `prev_named_sibling` chain (nearest first) of a declaration
preceded by `/// a`, `/// b`, `/// c` in source order. -/
def c5_prev_siblings : List Node :=
  [leafN "line_comment" "/// c", leafN "line_comment" "/// b",
   leafN "line_comment" "/// a"]

/-- The documented Rust declaration, a `function_item`. -/
def c5_fn_item : Node :=
  .mk "function_item" "fn documented() \x7b\x7d"
    [("name", leafN "identifier" "documented"),
     ("body", .mk "block" "\x7b\x7d" [] [] [leafN "\x7b" "\x7b", leafN "\x7d" "\x7d"])]
    [leafN "identifier" "documented",
     .mk "block" "\x7b\x7d" [] [] [leafN "\x7b" "\x7b", leafN "\x7d" "\x7d"]]
    [leafN "fn" "fn", leafN "identifier" "documented",
     .mk "parameters" "()" [] [] [leafN "(" "(", leafN ")" ")"],
     .mk "block" "\x7b\x7d" [] [] [leafN "\x7b" "\x7b", leafN "\x7d" "\x7d"]]

/-! ## Store lemmas shared by the aggregation claims -/

/-- Updating a dict value never changes the key of any entry. -/
theorem find?_dictApply (store : Store) (k cid : String) (f : Component → Component) :
    (dictApply store k f).find? (fun p => p.1 == cid)
      = (store.find? (fun p => p.1 == cid)).map
          (fun p => if p.1 == k then (p.1, f p.2) else p) := by
  have hpred :
      ((fun p => p.1 == cid) ∘ (fun p : String × Component =>
          if p.1 == k then (p.1, f p.2) else p)) = fun p => p.1 == cid := by
    funext p
    by_cases h : p.1 = k <;> simp [Function.comp, h]
  unfold dictApply
  rw [List.find?_map, hpred]

/-- `dictApply` preserves the key sequence of the store. -/
theorem fst_dictApply (store : Store) (k : String) (f : Component → Component) :
    (dictApply store k f).map Prod.fst = store.map Prod.fst := by
  have hcomp :
      (Prod.fst ∘ (fun p : String × Component =>
          if p.1 == k then (p.1, f p.2) else p)) = Prod.fst := by
    funext p
    by_cases h : p.1 = k <;> simp [Function.comp, h]
  unfold dictApply
  rw [List.map_map, hcomp]

/-- Key membership agrees with membership in the key sequence. -/
theorem storeHas_iff (store : Store) (cid : String) :
    storeHas store cid = true ↔ cid ∈ store.map Prod.fst := by
  simp [storeHas, List.find?_isSome, List.mem_map, beq_iff_eq]

/-- The key sequence after one aggregation step. -/
theorem fst_process_file_agg (store : Store) (fr : FileResult) :
    (process_file_agg store fr).map Prod.fst
      = if fr.cid ∈ store.map Prod.fst then store.map Prod.fst
        else store.map Prod.fst ++ [fr.cid] := by
  unfold process_file_agg
  by_cases h : storeHas store fr.cid = true
  · rw [if_pos h, fst_dictApply, if_pos ((storeHas_iff store fr.cid).mp h)]
  · have hmem : ¬ fr.cid ∈ store.map Prod.fst := fun hm =>
      h ((storeHas_iff store fr.cid).mpr hm)
    rw [if_neg h, fst_dictApply, if_neg hmem]
    simp

/-- The selected list of the dict entry at `cid` after a value update. -/
theorem storeSel_dictApply (sel : Component → List String) (store : Store)
    (k cid : String) (f : Component → Component) :
    storeSel sel (dictApply store k f) cid
      = if cid = k then
          (match store.find? (fun p => p.1 == cid) with
            | some p => sel (f p.2)
            | none => [])
        else storeSel sel store cid := by
  unfold storeSel
  rw [find?_dictApply]
  by_cases hck : cid = k
  · cases hfind : store.find? (fun p => p.1 == cid) with
    | none => simp [hck, hfind]
    | some p =>
      have hp : p.1 = cid := by
        have := List.find?_some hfind
        simpa [beq_iff_eq] using this
      simp [hck, hfind, hp]
  · cases hfind : store.find? (fun p => p.1 == cid) with
    | none => simp [hck, hfind]
    | some p =>
      have hp : p.1 = cid := by
        have := List.find?_some hfind
        simpa [beq_iff_eq] using this
      have hpk : ¬ p.1 = k := by
        rw [hp]
        exact hck
      simp [hck, hfind, hpk]

/-- One aggregation step appends exactly the file's batch onto the
selected list of its component and leaves every other component alone.
`sel`/`frSel` range over the three list projections. -/
theorem storeSel_step (sel : Component → List String) (frSel : FileResult → List String)
    (hext : ∀ fr c, sel (extendComponent fr c) = sel c ++ frSel fr)
    (hempty : ∀ cid, sel (emptyComponent cid) = [])
    (store : Store) (fr : FileResult) (cid : String) :
    storeSel sel (process_file_agg store fr) cid
      = storeSel sel store cid ++ (if fr.cid = cid then frSel fr else []) := by
  unfold process_file_agg
  by_cases hhas : storeHas store fr.cid = true
  · rw [if_pos hhas, storeSel_dictApply]
    by_cases hck : cid = fr.cid
    · rw [if_pos hck]
      subst hck
      have hs : (store.find? (fun p => p.1 == fr.cid)).isSome = true := hhas
      obtain ⟨p, hp⟩ := Option.isSome_iff_exists.mp hs
      rw [hp]
      simp [storeSel, hp, hext]
    · rw [if_neg hck, if_neg (fun h => hck h.symm), List.append_nil]
  · rw [if_neg hhas, storeSel_dictApply]
    have hnone : store.find? (fun p => p.1 == fr.cid) = none := by
      cases hf : store.find? (fun p => p.1 == fr.cid) with
      | none => rfl
      | some p => exact absurd (by simp [storeHas, hf]) hhas
    by_cases hck : cid = fr.cid
    · rw [if_pos hck]
      subst hck
      rw [List.find?_append, hnone]
      simp [storeSel, hnone, hext, hempty]
    · rw [if_neg hck, if_neg (fun h => hck h.symm), List.append_nil]
      unfold storeSel
      rw [List.find?_append]
      have hnil : List.find? (fun p => p.1 == cid) [(fr.cid, emptyComponent fr.cid)] = none := by
        simp [beq_iff_eq]
        exact fun h => hck h.symm
      rw [hnil]
      cases store.find? (fun p => p.1 == cid) <;> rfl

/-- Folding the aggregation over a file list: each component's selected
list is the in-order concatenation of the matching files' batches. -/
theorem storeSel_foldl (sel : Component → List String) (frSel : FileResult → List String)
    (hext : ∀ fr c, sel (extendComponent fr c) = sel c ++ frSel fr)
    (hempty : ∀ cid, sel (emptyComponent cid) = []) :
    ∀ (files : List FileResult) (store : Store) (cid : String),
      storeSel sel (files.foldl process_file_agg store) cid
        = storeSel sel store cid
            ++ (files.filter (fun f => f.cid == cid)).flatMap frSel := by
  intro files
  induction files with
  | nil => intro store cid; simp
  | cons fr files ih =>
    intro store cid
    rw [List.foldl_cons, ih]
    rw [storeSel_step sel frSel hext hempty]
    by_cases h : fr.cid = cid <;>
      simp [List.filter_cons, h, List.append_assoc]

/-- The stored component under each key carries that key as its id. -/
theorem component_id_invariant (files : List FileResult) :
    ∀ store : Store, (∀ p ∈ store, p.2.component_id = p.1) →
      ∀ p ∈ files.foldl process_file_agg store, p.2.component_id = p.1 := by
  induction files with
  | nil => intro store h; simpa using h
  | cons fr files ih =>
    intro store h
    refine ih _ ?_
    intro p hp
    unfold process_file_agg at hp
    rcases List.mem_map.mp hp with ⟨q, hq, hgq⟩
    have hq2 : q.2.component_id = q.1 := by
      by_cases hhas : storeHas store fr.cid
      · simp only [hhas, if_true] at hq
        exact h q hq
      · simp only [hhas, if_false] at hq
        rcases List.mem_append.mp hq with hq' | hq'
        · exact h q hq'
        · simp at hq'
          subst hq'
          rfl
    subst hgq
    by_cases hk : q.1 == fr.cid <;> simp [hk, extendComponent, hq2]

/-- The key sequence of the folded store is the first-occurrence fold of
the processed component ids. -/
theorem keys_foldl (files : List FileResult) :
    ∀ store : Store,
      (files.foldl process_file_agg store).map Prod.fst
        = files.foldl
            (fun acc fr => if fr.cid ∈ acc then acc else acc ++ [fr.cid])
            (store.map Prod.fst) := by
  induction files with
  | nil => intro store; rfl
  | cons fr files ih =>
    intro store
    rw [List.foldl_cons, List.foldl_cons, ih, fst_process_file_agg]

/-- Entry ids in a store satisfying the id invariant. -/
theorem ids_eq_keys (store : Store) (hP : ∀ p ∈ store, p.2.component_id = p.1) :
    store.map (fun p => p.2.component_id) = store.map Prod.fst := by
  induction store with
  | nil => rfl
  | cons hd tl ih =>
    simp only [List.map_cons]
    refine congrArg₂ _ (hP hd (List.mem_cons_self hd tl)) ?_
    exact ih (fun p hp => hP p (List.mem_cons_of_mem hd hp))

/-! ## Claim theorems -/

/-- C1: for the parameter list `(a, b: T = 5, *args, **kwargs)` the
signature extractor is claimed to return four entries with `b` as a
keyword-with-default carrying default text `"5"`.  On the actual parse
tree — where `b: T = 5` is a `typed_default_parameter` node —
`extract_py_signature` matches no branch for `b` and silently drops it,
returning only the three parameters `a`, `*args`, `**kwargs`. -/
theorem c1_signature_drops_typed_default :
    (extract_py_signature c1_func_node).params.map (fun p => p.name)
        = ["a", "*args", "**kwargs"]
      ∧ (extract_py_signature c1_func_node).params.length = 3
      ∧ ((extract_py_signature c1_func_node).params.map (fun p => p.name)).contains "b"
          = false := by
  decide

/-- C2 counterexample: processing two files whose component ids arrive
in the order `pkg.zeta`, `pkg.alpha` leaves the final top-level
component sequence (`list(repo_ir["components"].values())`,
`src/cli.py` line 274) in that insertion order, which is not sorted by
component id. -/
theorem c2_components_not_sorted :
    (run_pipeline [⟨"pkg.zeta", [], ["f"], []⟩, ⟨"pkg.alpha", [], ["g"], []⟩]).map
        (fun c => c.component_id) = ["pkg.zeta", "pkg.alpha"]
      ∧ idsSorted
          ((run_pipeline [⟨"pkg.zeta", [], ["f"], []⟩, ⟨"pkg.alpha", [], ["g"], []⟩]).map
            (fun c => c.component_id)) = false := by
  decide

/-- C2 amended: the top-level component sequence of the final output is
in first-insertion order — the order in which component ids are first
encountered during file processing — not sorted by component id. -/
theorem c2_components_first_insertion_order (files : List FileResult) :
    (run_pipeline files).map (fun c => c.component_id)
      = firstOccurrences (files.map (fun f => f.cid)) := by
  unfold run_pipeline pipelineStore firstOccurrences
  rw [List.map_map]
  have hids :
      (files.foldl process_file_agg []).map (fun p => p.2.component_id)
        = (files.foldl process_file_agg []).map Prod.fst :=
    ids_eq_keys _ (component_id_invariant files [] (by simp))
  calc (files.foldl process_file_agg []).map ((fun c => c.component_id) ∘ Prod.snd)
      = (files.foldl process_file_agg []).map (fun p => p.2.component_id) := rfl
    _ = (files.foldl process_file_agg []).map Prod.fst := hids
    _ = files.foldl (fun acc fr => if fr.cid ∈ acc then acc else acc ++ [fr.cid])
          (([] : Store).map Prod.fst) := keys_foldl files []
    _ = (files.map (fun f => f.cid)).foldl
          (fun acc k => if k ∈ acc then acc else acc ++ [k]) [] := by
        rw [List.foldl_map]
        rfl

/-- C3 counterexample: for a module file named `mod.py` the claimed FQN
`pkg.sub.mod.Outer.Foo` is never produced.  With the analysis root at
the package directory (relative path `sub/mod.py`, target `pkg`) the
pipeline yields `pkg.sub.Outer.Foo`; with the relative path
`pkg/sub/mod.py` it yields `pkg.pkg.sub.Outer.Foo`.  In both cases the
`mod` segment is dropped by `find_component_id_for_lib`'s
`("__init__", "mod", "lib")` sentinel test. -/
theorem c3_fqn_claim_false :
    pipeline_method_fqn "sub/mod.py" "pkg" "Outer" "Foo" = "pkg.sub.Outer.Foo"
      ∧ pipeline_method_fqn "pkg/sub/mod.py" "pkg" "Outer" "Foo" = "pkg.pkg.sub.Outer.Foo"
      ∧ pipeline_method_fqn "sub/mod.py" "pkg" "Outer" "Foo" ≠ "pkg.sub.mod.Outer.Foo"
      ∧ pipeline_method_fqn "pkg/sub/mod.py" "pkg" "Outer" "Foo" ≠ "pkg.sub.mod.Outer.Foo" := by
  decide

/-- C3 amended: for the dot-style source file at module path
`pkg/sub/mod` (relative path `sub/mod.py` under the analysis root,
target name `pkg`), the declaration `Foo` nested in the top-level
structure `Outer` deterministically receives the fully qualified name
`pkg.sub.Outer.Foo`: the final segment `mod` is treated as a
module-root sentinel filename and dropped. -/
theorem c3_fqn_mod_sentinel :
    pipeline_method_fqn "sub/mod.py" "pkg" "Outer" "Foo" = "pkg.sub.Outer.Foo" := by
  decide

/-- C4: the indented triple-quoted literal
`"""\n    line one\n    line two\n    """` as a declaration body's
first statement yields exactly `"line one\nline two"` — common leading
whitespace removed, outer whitespace trimmed, no quote or prefix
characters left — and a body whose first statement is not such a string
literal yields no docstring rather than an error. -/
theorem c4_python_docstring_roundtrip :
    get_docstring_from_python_node (some c4_body_with_doc) = some "line one\nline two"
      ∧ get_docstring_from_python_node (some c4_body_no_doc) = none := by
  decide

/-- C5: three consecutive `/// a`, `/// b`, `/// c` line comments
immediately preceding a Rust declaration yield the docstring
`"a\nb\nc"`: the backward sibling walk collects `["c", "b", "a"]` and
the result is reversed to restore source order, the `///` marker and
following space being stripped per line. -/
theorem c5_rust_docstring_roundtrip :
    get_docstring_from_rust_node c5_prev_siblings c5_fn_item = some "a\nb\nc"
      ∧ collectOuterDocLines c5_prev_siblings = ["c", "b", "a"] := by
  decide

/-- C6: the aggregator is append-only and order-preserving — for every
file list and component id, each of the component's three lists equals
the in-order concatenation of the matching files' batches, so records
from one file keep their order, records from later files are appended
after them, and nothing is ever overwritten, merged, or deduplicated by
name. -/
theorem c6_aggregator_append_only (files : List FileResult) (cid : String) :
    storeSel Component.functions (pipelineStore files) cid
        = (files.filter (fun f => f.cid == cid)).flatMap FileResult.funcs
      ∧ storeSel Component.data_structures (pipelineStore files) cid
        = (files.filter (fun f => f.cid == cid)).flatMap FileResult.structs
      ∧ storeSel Component.test_specifications (pipelineStore files) cid
        = (files.filter (fun f => f.cid == cid)).flatMap FileResult.tests := by
  refine ⟨?_, ?_, ?_⟩
  · have h := storeSel_foldl Component.functions FileResult.funcs
      (fun fr c => rfl) (fun c => rfl) files [] cid
    simpa [storeSel, pipelineStore] using h
  · have h := storeSel_foldl Component.data_structures FileResult.structs
      (fun fr c => rfl) (fun c => rfl) files [] cid
    simpa [storeSel, pipelineStore] using h
  · have h := storeSel_foldl Component.test_specifications FileResult.tests
      (fun fr c => rfl) (fun c => rfl) files [] cid
    simpa [storeSel, pipelineStore] using h

/-- A query name absent from the compiled input keys is absent from the
compiled set. -/
theorem lookupAssoc_compileQueryList_of_not_mem (compile : String → Option QueryFn)
    (qname : String) :
    ∀ queries : List (String × String), qname ∉ queries.map Prod.fst →
      lookupAssoc (compileQueryList compile queries) qname = none := by
  intro queries
  induction queries with
  | nil => intro _; rfl
  | cons q rest ih =>
    rcases q with ⟨n, s⟩
    intro h
    simp only [List.map_cons, List.mem_cons, not_or] at h
    cases hcs : compile s with
    | none =>
      simpa [compileQueryList, hcs] using ih h.2
    | some qq =>
      have hne : (n == qname) = false := by
        simp only [beq_eq_false_iff_ne, ne_eq]
        exact fun he => h.1 he.symm
      have hrest := ih h.2
      simpa [compileQueryList, hcs, lookupAssoc, List.find?_cons, hne] using hrest

/-- A query whose compilation fails is not inserted, and (given the
dict's keys are distinct) no other entry can resurrect its name. -/
theorem lookup_compiled_failed (compile : String → Option QueryFn) (qname qsrc : String) :
    ∀ queries : List (String × String), (queries.map Prod.fst).Nodup →
      (qname, qsrc) ∈ queries → compile qsrc = none →
      lookupAssoc (compileQueryList compile queries) qname = none := by
  intro queries
  induction queries with
  | nil => intro _ hmem _; cases hmem
  | cons q rest ih =>
    rcases q with ⟨n, s⟩
    intro hnodup hmem hfail
    simp only [List.map_cons, List.nodup_cons] at hnodup
    rcases List.mem_cons.mp hmem with heq | hmem'
    · have hn : qname = n := by cases heq; rfl
      have hs : qsrc = s := by cases heq; rfl
      subst hn
      subst hs
      simp only [compileQueryList, hfail]
      exact lookupAssoc_compileQueryList_of_not_mem compile qname rest hnodup.1
    · have hqmem : qname ∈ rest.map Prod.fst :=
        List.mem_map.mpr ⟨(qname, qsrc), hmem', rfl⟩
      have hne : (n == qname) = false := by
        simp only [beq_eq_false_iff_ne, ne_eq]
        exact fun he => hnodup.1 (he ▸ hqmem)
      cases hcs : compile s with
      | none =>
        simp only [compileQueryList, hcs]
        exact ih hnodup.2 hmem' hfail
      | some qq =>
        have hrest := ih hnodup.2 hmem' hfail
        simpa [compileQueryList, hcs, lookupAssoc, List.find?_cons, hne] using hrest

/-- C7: a query whose compilation fails during a language's
initialization is simply absent from the compiled query set, and every
later `run_query` for that name returns the empty list instead of
raising. -/
theorem c7_failed_query_absent (compile : String → Option QueryFn)
    (queries : List (String × String)) (lang qname qsrc : String) (node : Option Node)
    (hnodup : (queries.map Prod.fst).Nodup)
    (hmem : (qname, qsrc) ∈ queries)
    (hfail : compile qsrc = none) :
    lookupAssoc (compileQueryList compile queries) qname = none
      ∧ run_query (queriesCompiledFor lang compile queries) qname lang node = [] := by
  have hlook := lookup_compiled_failed compile qname qsrc queries hnodup hmem hfail
  refine ⟨hlook, ?_⟩
  unfold run_query queriesCompiledFor
  have hself : lookupAssoc [(lang, compileQueryList compile queries)] lang
      = some (compileQueryList compile queries) := by
    simp [lookupAssoc]
  rw [hself]
  cases node <;> simp [hlook]

/-- A compiler stand-in that fails exactly on the `"(broken"` source. -/
def compileDemo : String → Option QueryFn :=
  fun s => if s = "(broken" then none else some (fun _ => [])

/-- A query dict with one compilable and one broken query. -/
def queriesDemo : List (String × String) :=
  [("functions", "(function_definition) @function.definition"),
   ("docstring", "(broken")]

/-- Witness for C7 at the concrete query set. -/
theorem c7_failed_query_absent_witness :
    (queriesDemo.map Prod.fst).Nodup
      ∧ ("docstring", "(broken") ∈ queriesDemo
      ∧ compileDemo "(broken" = none
      ∧ (lookupAssoc (compileQueryList compileDemo queriesDemo) "docstring" = none
          ∧ run_query (queriesCompiledFor "python" compileDemo queriesDemo)
              "docstring" "python" (some (leafN "module" "")) = []) :=
  ⟨by decide, by decide, rfl,
    c7_failed_query_absent compileDemo queriesDemo "python" "docstring" "(broken"
      (some (leafN "module" "")) (by decide) (by decide) rfl⟩

/-- C8: `get_node_text` is total on a present node and buffer — the
decoded slice `[start, end)` when `start < end <= len`, and the empty
string (never an error) for `start == end` or any out-of-range
extent. -/
theorem c8_get_node_text_total (decode : List Nat → String) (s e : Nat) (bs : List Nat) :
    (s < e ∧ e ≤ bs.length →
        get_node_text decode (some ⟨s, e⟩) (some bs)
          = some (decode ((bs.drop s).take (e - s))))
      ∧ (¬(s < e ∧ e ≤ bs.length) →
        get_node_text decode (some ⟨s, e⟩) (some bs) = some "") := by
  constructor <;> intro h <;> simp [get_node_text, h]

/-- Witness for C8: an in-range slice and a zero-width extent. -/
theorem c8_get_node_text_total_witness :
    get_node_text decodeLen (some ⟨1, 3⟩) (some [5, 6, 7, 8]) = some (decodeLen [6, 7])
      ∧ get_node_text decodeLen (some ⟨2, 2⟩) (some [5, 6, 7, 8]) = some "" :=
  ⟨(c8_get_node_text_total decodeLen 1 3 [5, 6, 7, 8]).1 (by decide),
   (c8_get_node_text_total decodeLen 2 2 [5, 6, 7, 8]).2 (by decide)⟩

/-- C9: the FQN builder silently absorbs a trailing duplicate name —
whenever the parent FQN is non-empty, begins with the module base path
and merely ends with the item name (any suffix, not only a whole final
segment), the built FQN is the parent FQN itself and the name is not
appended. -/
theorem c9_fqn_endswith_absorbs (rel n p : String)
    (h1 : p ≠ "") (h2 : python_module_base rel ≠ "")
    (h3 : pyStartsWith p (python_module_base rel) = true)
    (h4 : pyEndsWith p n = true) :
    _build_python_fqn rel n (some p) = p := by
  simp only [_build_python_fqn]
  rw [if_pos h1, if_pos ⟨h2, h3⟩, if_pos h4]

/-- Witness for C9: `"a.Foo"` ends with the non-segment suffix `"oo"`,
so the item and its parent collapse to the identical qualified name. -/
theorem c9_fqn_endswith_absorbs_witness :
    "a.Foo" ≠ ""
      ∧ python_module_base "a.py" ≠ ""
      ∧ pyStartsWith "a.Foo" (python_module_base "a.py") = true
      ∧ pyEndsWith "a.Foo" "oo" = true
      ∧ _build_python_fqn "a.py" "oo" (some "a.Foo") = "a.Foo" :=
  ⟨by decide, by decide, by decide, by decide,
    c9_fqn_endswith_absorbs "a.py" "oo" "a.Foo" (by decide) (by decide) (by decide) (by decide)⟩

/-- C10: a named top-level Python function declaration lands in exactly
one of the two lists, and it is routed to the test-specification list if
and only if the file is a test file or the name starts with `test_`;
otherwise it lands in the function list; never in both. -/
theorem c10_test_routing (file_name : String) (file_parts : List String) (name : String)
    (hname : name ≠ "") :
    (route_py_func_decl (is_test_file file_name file_parts) name
          = { new_funcs := [], new_tests := [name] }
        ∨ route_py_func_decl (is_test_file file_name file_parts) name
          = { new_funcs := [name], new_tests := [] })
      ∧ (route_py_func_decl (is_test_file file_name file_parts) name
            = { new_funcs := [], new_tests := [name] }
          ↔ (is_test_file file_name file_parts = true ∨ pyStartsWith name "test_" = true)) := by
  cases htf : is_test_file file_name file_parts <;>
    cases hst : pyStartsWith name "test_" <;>
      simp [route_py_func_decl, htf, hst, hname]

/-- Witness for C10: a non-test file and a non-`test_` name route to the
function list. -/
theorem c10_test_routing_witness :
    "helper" ≠ ""
      ∧ ((route_py_func_decl (is_test_file "utils.py" ["pkg", "utils.py"]) "helper"
            = { new_funcs := [], new_tests := ["helper"] }
          ∨ route_py_func_decl (is_test_file "utils.py" ["pkg", "utils.py"]) "helper"
            = { new_funcs := ["helper"], new_tests := [] })
        ∧ (route_py_func_decl (is_test_file "utils.py" ["pkg", "utils.py"]) "helper"
              = { new_funcs := [], new_tests := ["helper"] }
            ↔ (is_test_file "utils.py" ["pkg", "utils.py"] = true
                ∨ pyStartsWith "helper" "test_" = true))) :=
  ⟨by decide, c10_test_routing "utils.py" ["pkg", "utils.py"] "helper" (by decide)⟩

end Llmos
